import Mathlib

/-!
Shallow embedding of `src/main.rs` of the static-web-unikernel server.

Rust strings are modelled as `List Char`; `String::len` (UTF-8 byte count)
is modelled by `utf8Len`.  I/O outcomes (read, write, accept, bind) are
modelled as explicit result values handed to the handler functions, and the
side effects of each function (its `println!` lines and the byte payload it
passes to `write`) are collected as explicit event lists.
-/

set_option maxRecDepth 100000

namespace StaticWeb

/-- Model of Rust's `{}` formatting of one decimal digit (`0..9`). -/
def digitChar : Nat → Char
  | 0 => '0'
  | 1 => '1'
  | 2 => '2'
  | 3 => '3'
  | 4 => '4'
  | 5 => '5'
  | 6 => '6'
  | 7 => '7'
  | 8 => '8'
  | _ => '9'

/-- Fuel-driven helper for `natDigits`; the fuel only needs to exceed the
value being printed. -/
def natDigitsAux : Nat → Nat → List Char
  | 0, _ => []
  | fuel + 1, n =>
    if n < 10 then [digitChar n]
    else natDigitsAux fuel (n / 10) ++ [digitChar (n % 10)]

/-- Model of Rust's `{}` `Display` formatting of an unsigned integer in decimal. -/
def natDigits (n : Nat) : List Char := natDigitsAux (n + 1) n

/-- Number of bytes of the UTF-8 encoding of one scalar value
(model of how Rust counts `String::len`). -/
def charBytes (c : Char) : Nat :=
  if c.toNat < 0x80 then 1
  else if c.toNat < 0x800 then 2
  else if c.toNat < 0x10000 then 3
  else 4

/-- Model of Rust `String::len`: the UTF-8 byte length of the string. -/
def utf8Len (l : List Char) : Nat := (l.map charBytes).sum

/-- `StatsSnapshot`: total and used memory in kB as sampled by `sysinfo`
(`sys.total_memory()`, `sys.used_memory()`, both `u64`). -/
structure StatsSnapshot where
  total_mem : Nat
  used_mem : Nat
deriving DecidableEq

/-- The part of the `response_body` raw-string template before the first `{}`. -/
def bodyPre : List Char :=
  ("\n            <html>\n                <head>\n                    <meta charset=\"UTF-8\">\n                    <title>Unikernel Stats</title>\n                </head>\n                <body>\n                    <h1>Hello, Unikernel World!</h1>\n                    <p>Here are some system stats:</p>\n                    <ul>\n                        <li><strong>Total Memory:</strong> ").data

/-- The part of the `response_body` template between the two `{}` holes. -/
def bodyMid : List Char :=
  (" kB</li>\n                        <li><strong>Used Memory:</strong> ").data

/-- The part of the `response_body` template after the second `{}`
(line 42 of the source carries 24 trailing spaces). -/
def bodyPost : List Char :=
  (" kB</li>                        \n                    </ul>\n                </body>\n            </html>\n        ").data

/-- `let response_body = format!(r#"..."#, total_mem, used_mem)` from `handle_write`. -/
def response_body (total_mem used_mem : Nat) : List Char :=
  bodyPre ++ natDigits total_mem ++ bodyMid ++ natDigits used_mem ++ bodyPost

/-- The literal chunk of the `response` format string before the first `{}`
(the `\` line continuations strip the newline and leading whitespace). -/
def headChunk : List Char :=
  ("HTTP/1.1 200 OK\r\nContent-Type: text/html; charset=UTF-8\r\nContent-Length: ").data

/-- `let response = format!("...", response_body.len(), response_body)` from
`handle_write`. -/
def response (total_mem used_mem : Nat) : List Char :=
  headChunk ++ natDigits (utf8Len (response_body total_mem used_mem)) ++
    ("\r\n\r\n").data ++ response_body total_mem used_mem

/-- The full serialized response bytes `handle_write` passes to `stream.write`,
as a function of the sampled snapshot. -/
def buildResponse (s : StatsSnapshot) : List Char :=
  response s.total_mem s.used_mem

/-- Error messages carried by `io::Error` values, modelled as their display text. -/
abbrev ErrMsg := List Char

/-- The U+FFFD replacement character emitted for invalid input. -/
def repl : Char := Char.ofNat 0xFFFD

/-- State of the streaming UTF-8 decoder: either at a sequence boundary, or
inside a multi-byte sequence with `cnt` continuation bytes still expected and
`lo..hi` the admissible range of the next byte (Rust `core::str` validation:
the range of the second byte depends on the lead so that overlong encodings,
surrogates and values above U+10FFFF are rejected). -/
inductive DecSt where
  | s0
  | more (acc : Nat) (cnt : Nat) (lo : Nat) (hi : Nat)
deriving DecidableEq

/-- Decoder transition on one byte from a sequence boundary. -/
def stepS0 (b : Nat) : List Char × DecSt :=
  if b < 0x80 then ([Char.ofNat b], .s0)
  else if b < 0xC2 then ([repl], .s0)
  else if b ≤ 0xDF then ([], .more (b - 0xC0) 1 0x80 0xBF)
  else if b = 0xE0 then ([], .more (b - 0xE0) 2 0xA0 0xBF)
  else if b = 0xED then ([], .more (b - 0xE0) 2 0x80 0x9F)
  else if b ≤ 0xEF then ([], .more (b - 0xE0) 2 0x80 0xBF)
  else if b = 0xF0 then ([], .more (b - 0xF0) 3 0x90 0xBF)
  else if b ≤ 0xF3 then ([], .more (b - 0xF0) 3 0x80 0xBF)
  else if b = 0xF4 then ([], .more (b - 0xF0) 3 0x80 0x8F)
  else ([repl], .s0)

/-- Decoder transition on one byte: inside a sequence, a byte in range extends
the scalar value; a byte out of range replaces the invalid maximal subpart
with one U+FFFD and is reprocessed from the boundary state (this is the
maximal-subpart policy of `String::from_utf8_lossy`). -/
def step (st : DecSt) (b : Nat) : List Char × DecSt :=
  match st with
  | .s0 => stepS0 b
  | .more acc cnt lo hi =>
    if lo ≤ b ∧ b ≤ hi then
      if cnt = 1 then ([Char.ofNat (acc * 0x40 + (b - 0x80))], .s0)
      else ([], .more (acc * 0x40 + (b - 0x80)) (cnt - 1) 0x80 0xBF)
    else (repl :: (stepS0 b).1, (stepS0 b).2)

/-- Run the decoder over a byte list, returning emitted characters and the
final state. -/
def runDecCore (st : DecSt) : List Nat → List Char × DecSt
  | [] => ([], st)
  | b :: rest =>
    ((step st b).1 ++ (runDecCore (step st b).2 rest).1,
     (runDecCore (step st b).2 rest).2)

/-- End of input: an unfinished sequence is one invalid maximal subpart. -/
def flush : DecSt → List Char
  | .s0 => []
  | .more _ _ _ _ => [repl]

/-- Model of Rust `String::from_utf8_lossy`: decode a byte sequence,
replacing each maximal invalid subpart with one U+FFFD. -/
def utf8Lossy (l : List Nat) : List Char :=
  (runDecCore .s0 l).1 ++ flush (runDecCore .s0 l).2

/-- Outcome of the single `stream.read(&mut buf)` call: `Ok(n)` together with
the bytes the kernel placed at the front of the buffer, or an error. -/
inductive ReadResult where
  | ok (n : Nat) (bytes : List Nat)
  | err (e : ErrMsg)
deriving DecidableEq

/-- Outcome of the single `stream.write(...)` call: `Ok(n)` (bytes actually
transmitted) or an error. -/
inductive WriteResult where
  | ok (n : Nat)
  | err (e : ErrMsg)
deriving DecidableEq

/-- Observable actions of a connection handler: its `println!` lines and the
payload it hands to `stream.write`. -/
inductive Event where
  | readLogged (text : List Char)
  | readFailed (msg : List Char)
  | writeAttempted (payload : List Char)
  | responseSent
  | writeFailed (msg : List Char)
deriving DecidableEq

/-- `let mut buf = [0u8; 4096]` after the read: the received bytes (at most
4096 fit) followed by the untouched zero initialization. -/
def readBuffer (bytes : List Nat) : List Nat :=
  bytes.take 4096 ++ List.replicate (4096 - (bytes.take 4096).length) 0

/-- The line `handle_read` prints: on `Ok(_)` the lossy decoding of the whole
buffer (the count `n` is discarded), on `Err(e)` the error report. -/
def handle_read_log (r : ReadResult) : List Char :=
  match r with
  | .ok _ bytes => utf8Lossy (readBuffer bytes)
  | .err e => ("Unable to read stream: ").data ++ e

/-- Events of the read phase (`handle_read`). -/
def handle_read_events (r : ReadResult) : List Event :=
  match r with
  | .ok _ bytes => [.readLogged (utf8Lossy (readBuffer bytes))]
  | .err e => [.readFailed (("Unable to read stream: ").data ++ e)]

/-- Events of the write phase (`handle_write`): one write attempt with the
full serialized response, then the report matched on the write result
(`Ok(_) => "Response sent"`, `Err(e) => "Failed sending response"`). -/
def handle_write_events (s : StatsSnapshot) (w : WriteResult) : List Event :=
  .writeAttempted (buildResponse s) ::
    (match w with
     | .ok _ => [.responseSent]
     | .err e => [.writeFailed (("Failed sending response: ").data ++ e)])

/-- `handle_client`: the read phase followed unconditionally by the write
phase. -/
def handle_client_events (r : ReadResult) (s : StatsSnapshot) (w : WriteResult) :
    List Event :=
  handle_read_events r ++ handle_write_events s w

/-- The read phase against the connection's queue of pending read outcomes:
it consumes exactly the first one and leaves the rest untouched. -/
def readPhaseConsume (pending : List ReadResult) :
    Option (List Char) × List ReadResult :=
  match pending with
  | [] => (none, [])
  | r :: rest => (some (handle_read_log r), rest)

/-- Outcome of one `listener.incoming()` item. -/
inductive AcceptResult where
  | ok (connId : Nat)
  | err (e : ErrMsg)
deriving DecidableEq

/-- Observable actions of the accept loop in `main`. -/
inductive LoopEvent where
  | spawned (connId : Nat)
  | acceptFailedLogged (msg : List Char)
  | closedListener
deriving DecidableEq

/-- The accept loop of `main`: `Ok(stream)` spawns a handler thread,
`Err(e)` prints `Unable to connect` and the loop continues; nothing in the
loop ever closes the listener. -/
def acceptLoop (outs : List AcceptResult) : List LoopEvent :=
  match outs with
  | [] => []
  | .ok c :: rest => .spawned c :: acceptLoop rest
  | .err e :: rest =>
      .acceptFailedLogged (("Unable to connect: ").data ++ e) :: acceptLoop rest

/-- Result of running `main` given the bind outcome: `unwrap()` on a bind
error panics before the accept loop; otherwise the loop runs. -/
inductive MainResult where
  | panicked (e : ErrMsg)
  | looped (events : List LoopEvent)
deriving DecidableEq

/-- `main`: `TcpListener::bind("0.0.0.0:8080").unwrap()` then the accept loop. -/
def mainModel (bind : Except ErrMsg Unit) (accepts : List AcceptResult) :
    MainResult :=
  match bind with
  | .error e => .panicked e
  | .ok _ => .looped (acceptLoop accepts)

/-- Accept-loop events that actually happened in a `main` run. -/
def mainLoopEvents (r : MainResult) : List LoopEvent :=
  match r with
  | .panicked _ => []
  | .looped evs => evs

/-! Claim-side observers: an independent HTTP-response parser and extractors
over handler event lists, used to state the properties without mentioning how
the response was assembled. -/

/-- The CRLF line terminator. -/
def crlf : List Char := ['\r', '\n']

/-- Split a list around the first occurrence of `sep`, if any. -/
def splitFirst (sep : List Char) : List Char → Option (List Char × List Char)
  | [] => if sep.isEmpty then some ([], []) else none
  | c :: cs =>
    if sep.isPrefixOf (c :: cs) then some ([], (c :: cs).drop sep.length)
    else
      match splitFirst sep cs with
      | some (a, b) => some (c :: a, b)
      | none => none

/-- Remove a leading pattern, if present. -/
def stripHead (pat s : List Char) : Option (List Char) :=
  if pat.isPrefixOf s then some (s.drop pat.length) else none

/-- Is `c` an ASCII decimal digit? -/
def isDigitChar (c : Char) : Bool := decide (48 ≤ c.toNat ∧ c.toNat ≤ 57)

/-- Numeric value of an ASCII digit. -/
def digitVal (c : Char) : Nat := c.toNat - 48

/-- Parse a nonempty all-digit list as a decimal number. -/
def parseNat (l : List Char) : Option Nat :=
  if l.isEmpty then none
  else if l.all isDigitChar then
    some (l.foldl (fun a c => a * 10 + digitVal c) 0)
  else none

/-- Parse a serialized HTTP/1.1 response: three CRLF-terminated lines (status,
Content-Type, Content-Length), a blank line, then the body.  Returns the
numeric Content-Length value and the body. -/
def parseResponse (resp : List Char) : Option (Nat × List Char) :=
  (splitFirst crlf resp).bind fun p1 =>
  (splitFirst crlf p1.2).bind fun p2 =>
  (splitFirst crlf p2.2).bind fun p3 =>
  (splitFirst crlf p3.2).bind fun p4 =>
  if p4.1.isEmpty then
    (stripHead ("Content-Length: ").data p3.1).bind fun ds =>
    (parseNat ds).bind fun n => some (n, p4.2)
  else none

/-- The byte payloads a handler passed to `stream.write`. -/
def writePayloads (evs : List Event) : List (List Char) :=
  evs.filterMap fun e =>
    match e with
    | .writeAttempted p => some p
    | _ => none

/-- The write-phase reports a handler printed (`true` for `Response sent`,
`false` for `Failed sending response`). -/
def writeReports (evs : List Event) : List Bool :=
  evs.filterMap fun e =>
    match e with
    | .responseSent => some true
    | .writeFailed _ => some false
    | _ => none

/-- Invariant of decoder states reachable from `.s0`: inside a sequence the
admissible range never admits bytes below `0x80`. -/
def stLoOK : DecSt → Prop
  | .s0 => True
  | .more _ _ lo _ => 0x80 ≤ lo

/-! Helper lemmas. -/

theorem stepS0_stOK (b : Nat) : stLoOK (stepS0 b).2 := by
  unfold stepS0
  split_ifs <;> simp [stLoOK]

theorem step_stOK (st : DecSt) (b : Nat) : stLoOK (step st b).2 := by
  cases st with
  | s0 => exact stepS0_stOK b
  | more acc cnt lo hi =>
    simp only [step]
    split_ifs <;> first | exact stepS0_stOK b | simp [stLoOK]

theorem runDecCore_append (ys : List Nat) :
    ∀ (xs : List Nat) (st : DecSt),
      runDecCore st (xs ++ ys) =
        ((runDecCore st xs).1 ++ (runDecCore (runDecCore st xs).2 ys).1,
         (runDecCore (runDecCore st xs).2 ys).2) := by
  intro xs
  induction xs with
  | nil => intro st; simp [runDecCore]
  | cons b xs' ih =>
    intro st
    rw [show (b :: xs') ++ ys = b :: (xs' ++ ys) from rfl]
    simp only [runDecCore]
    rw [ih]
    simp [List.append_assoc]

theorem runDecCore_stOK :
    ∀ (l : List Nat) (st : DecSt), stLoOK st → stLoOK (runDecCore st l).2 := by
  intro l
  induction l with
  | nil => intro st h; simpa [runDecCore] using h
  | cons b rest ih =>
    intro st _
    simp only [runDecCore]
    exact ih _ (step_stOK st b)

theorem step_zero (st : DecSt) (h : stLoOK st) :
    step st 0 = (flush st ++ [Char.ofNat 0], .s0) := by
  cases st with
  | s0 => decide
  | more acc cnt lo hi =>
    have hlo : 0x80 ≤ lo := h
    simp only [step]
    rw [if_neg (by omega)]
    rw [show stepS0 0 = ([Char.ofNat 0], DecSt.s0) from by decide]
    simp [flush]

theorem runDecCore_zeros_s0 :
    ∀ k, runDecCore .s0 (List.replicate k 0) =
      (List.replicate k (Char.ofNat 0), .s0) := by
  intro k
  induction k with
  | zero => simp [runDecCore]
  | succ j ih =>
    simp only [List.replicate_succ, runDecCore]
    rw [show step DecSt.s0 0 = ([Char.ofNat 0], DecSt.s0) from by decide]
    rw [ih]
    simp

theorem utf8Lossy_append_zeros (xs : List Nat) (k : Nat) :
    utf8Lossy (xs ++ List.replicate k 0) =
      utf8Lossy xs ++ List.replicate k (Char.ofNat 0) := by
  cases k with
  | zero => simp [utf8Lossy]
  | succ j =>
    unfold utf8Lossy
    rw [runDecCore_append]
    have hOK : stLoOK (runDecCore DecSt.s0 xs).2 := runDecCore_stOK xs .s0 trivial
    rw [List.replicate_succ]
    simp only [runDecCore]
    rw [step_zero _ hOK]
    rw [runDecCore_zeros_s0 j]
    simp [flush, List.append_assoc, List.replicate_succ]

theorem handle_read_log_ok (n : Nat) (bytes : List Nat) :
    handle_read_log (.ok n bytes) =
      utf8Lossy (bytes.take 4096) ++
        List.replicate (4096 - (bytes.take 4096).length) (Char.ofNat 0) := by
  unfold handle_read_log readBuffer
  exact utf8Lossy_append_zeros _ _

theorem natDigitsAux_irrel :
    ∀ f1 f2 n, n < f1 → n < f2 → natDigitsAux f1 n = natDigitsAux f2 n := by
  intro f1
  induction f1 with
  | zero => intro f2 n h1 _; omega
  | succ g ih =>
    intro f2 n h1 h2
    cases f2 with
    | zero => omega
    | succ h =>
      simp only [natDigitsAux]
      by_cases hn : n < 10
      · simp [hn]
      · simp only [if_neg hn]
        have hdiv : n / 10 < n := Nat.div_lt_self (by omega) (by omega)
        rw [ih (h) (n / 10) (by omega) (by omega)]

/-- One-step unfolding of `natDigits`. -/
theorem natDigits_eq (n : Nat) :
    natDigits n =
      if n < 10 then [digitChar n]
      else natDigits (n / 10) ++ [digitChar (n % 10)] := by
  by_cases hn : n < 10
  · rw [if_pos hn]
    simp only [natDigits, natDigitsAux, if_pos hn]
  · rw [if_neg hn]
    show natDigitsAux (n + 1) n = natDigitsAux (n / 10 + 1) (n / 10) ++ [digitChar (n % 10)]
    rw [show natDigitsAux (n + 1) n = natDigitsAux n (n / 10) ++ [digitChar (n % 10)] from by
      simp only [natDigitsAux, if_neg hn]]
    have hdiv : n / 10 < n := Nat.div_lt_self (by omega) (by omega)
    rw [natDigitsAux_irrel n (n / 10 + 1) (n / 10) (by omega) (by omega)]

theorem digitChar_isDigit (m : Nat) (h : m < 10) :
    isDigitChar (digitChar m) = true := by
  interval_cases m <;> decide

theorem digitVal_digitChar (m : Nat) (h : m < 10) : digitVal (digitChar m) = m := by
  interval_cases m <;> decide

theorem natDigits_digit : ∀ n c, c ∈ natDigits n → isDigitChar c = true := by
  intro n
  induction n using Nat.strong_induction_on with
  | _ n ih =>
    intro c hc
    rw [natDigits_eq] at hc
    by_cases hn : n < 10
    · rw [if_pos hn] at hc
      simp only [List.mem_singleton] at hc
      subst hc
      exact digitChar_isDigit n hn
    · rw [if_neg hn] at hc
      rcases List.mem_append.mp hc with h1 | h2
      · exact ih (n / 10) (Nat.div_lt_self (by omega) (by omega)) c h1
      · simp only [List.mem_singleton] at h2
        subst h2
        exact digitChar_isDigit _ (Nat.mod_lt _ (by omega))

theorem natDigits_ne_nil (n : Nat) : natDigits n ≠ [] := by
  rw [natDigits_eq]
  split <;> simp

theorem cr_not_mem_natDigits (n : Nat) : '\r' ∉ natDigits n := by
  intro h
  have hd := natDigits_digit n '\r' h
  exact absurd hd (by decide)

theorem foldl_natDigits :
    ∀ n a, (natDigits n).foldl (fun x c => x * 10 + digitVal c) a =
      a * 10 ^ (natDigits n).length + n := by
  intro n
  induction n using Nat.strong_induction_on with
  | _ n ih =>
    intro a
    rw [natDigits_eq]
    by_cases hn : n < 10
    · rw [if_pos hn]
      simp [List.foldl, digitVal_digitChar n hn]
    · rw [if_neg hn]
      rw [List.foldl_append, List.length_append]
      simp only [List.length_cons, List.length_nil, Nat.zero_add]
      rw [ih (n / 10) (Nat.div_lt_self (by omega) (by omega)) a]
      simp only [List.foldl]
      rw [digitVal_digitChar _ (Nat.mod_lt _ (by omega))]
      have hq : 10 * (n / 10) + n % 10 = n := Nat.div_add_mod n 10
      have hpow : 10 ^ ((natDigits (n / 10)).length + 1) =
          10 ^ (natDigits (n / 10)).length * 10 := by
        rw [pow_succ]
      rw [hpow]
      calc (a * 10 ^ (natDigits (n / 10)).length + n / 10) * 10 + n % 10
          = a * (10 ^ (natDigits (n / 10)).length * 10) + (10 * (n / 10) + n % 10) := by
            ring
        _ = a * (10 ^ (natDigits (n / 10)).length * 10) + n := by rw [hq]

theorem parseNat_natDigits (n : Nat) : parseNat (natDigits n) = some n := by
  unfold parseNat
  rw [if_neg (by simp [List.isEmpty_iff, natDigits_ne_nil])]
  rw [if_pos (List.all_eq_true.mpr fun c hc => natDigits_digit n c hc)]
  rw [foldl_natDigits n 0]
  simp

theorem stripHead_append (pat rest : List Char) :
    stripHead pat (pat ++ rest) = some rest := by
  unfold stripHead
  rw [if_pos (List.isPrefixOf_iff_prefix.mpr (List.prefix_append pat rest))]
  rw [List.drop_left]

theorem splitFirst_cr (s b : List Char) :
    ∀ a : List Char, '\r' ∉ a →
      splitFirst ('\r' :: s) (a ++ ('\r' :: s) ++ b) = some (a, b) := by
  intro a
  induction a with
  | nil =>
    intro _
    have hshape : ([] : List Char) ++ ('\r' :: s) ++ b = '\r' :: (s ++ b) := by simp
    rw [hshape]
    simp only [splitFirst]
    rw [if_pos (by
      exact List.isPrefixOf_iff_prefix.mpr
        (show ('\r' :: s) <+: ('\r' :: s) ++ b from List.prefix_append _ _))]
    simp only [List.length_cons, List.drop_succ_cons]
    rw [show s ++ b = s ++ b from rfl, List.drop_left]
  | cons c a' ih =>
    intro hmem
    have hc : ('\r' : Char) ≠ c := by
      intro hh
      exact hmem (by simp [← hh])
    have hshape : (c :: a') ++ ('\r' :: s) ++ b = c :: (a' ++ ('\r' :: s) ++ b) := by
      simp
    rw [hshape]
    simp only [splitFirst]
    rw [if_neg (by
      simp only [List.isPrefixOf]
      rw [Bool.and_eq_true, beq_iff_eq]
      intro hcon
      exact hc hcon.1)]
    rw [ih (fun hmem2 => hmem (List.mem_cons_of_mem c hmem2))]

theorem splitFirst_crlf (a b : List Char) (h : '\r' ∉ a) :
    splitFirst crlf (a ++ crlf ++ b) = some (a, b) := by
  simpa [crlf] using splitFirst_cr ['\n'] b a h

/-- Regrouping of the serialized response into its header lines and body. -/
theorem response_lines (t u : Nat) :
    response t u =
      ("HTTP/1.1 200 OK").data ++ crlf ++
        (("Content-Type: text/html; charset=UTF-8").data ++ crlf ++
          ((("Content-Length: ").data ++
              natDigits (utf8Len (response_body t u))) ++ crlf ++
            ([] ++ crlf ++ response_body t u))) := by
  unfold response
  rw [show headChunk = ("HTTP/1.1 200 OK").data ++ crlf ++
      (("Content-Type: text/html; charset=UTF-8").data ++ crlf ++
        ("Content-Length: ").data) from by decide]
  rw [show ("\r\n\r\n").data = crlf ++ crlf from by decide]
  simp [List.append_assoc]

/-- The independent parser recovers from the serialized response exactly the
`Content-Length` value and the body the builder used. -/
theorem parseResponse_response (t u : Nat) :
    parseResponse (response t u) =
      some (utf8Len (response_body t u), response_body t u) := by
  rw [response_lines t u]
  unfold parseResponse
  rw [splitFirst_crlf _ _ (by decide)]
  rw [Option.some_bind]
  rw [splitFirst_crlf _ _ (by decide)]
  rw [Option.some_bind]
  rw [splitFirst_crlf _ _ (by
    intro hmem
    rcases List.mem_append.mp hmem with h | h
    · exact absurd h (by decide)
    · exact cr_not_mem_natDigits _ h)]
  rw [Option.some_bind]
  rw [splitFirst_crlf [] _ (by decide)]
  rw [Option.some_bind]
  rw [if_pos (show (([] : List Char), response_body t u).1.isEmpty = true from rfl)]
  rw [stripHead_append]
  rw [Option.some_bind]
  rw [parseNat_natDigits]
  rw [Option.some_bind]

theorem writePayloads_append (a b : List Event) :
    writePayloads (a ++ b) = writePayloads a ++ writePayloads b :=
  List.filterMap_append a b _

theorem writePayloads_read (r : ReadResult) :
    writePayloads (handle_read_events r) = [] := by
  cases r <;> simp [handle_read_events, writePayloads]

theorem writePayloads_write (s : StatsSnapshot) (w : WriteResult) :
    writePayloads (handle_write_events s w) = [buildResponse s] := by
  cases w <;> simp [handle_write_events, writePayloads]

/-! Claim theorems. -/

/-- C1: for every snapshot (both memory values arbitrary, including zero),
the numeric Content-Length value recovered from the serialized response by an
independent parser equals the exact UTF-8 byte length of the body recovered
by the same parser. -/
theorem content_length_matches_body (t u : Nat) :
    ∃ n body, parseResponse (response t u) = some (n, body) ∧ n = utf8Len body :=
  ⟨utf8Len (response_body t u), response_body t u, parseResponse_response t u, rfl⟩

/-- C2: for every read outcome (success with any byte content or a read
error), the write phase runs afterwards: the write-phase events are a suffix
of the connection's events, and in particular a write of the full response is
attempted. -/
theorem write_phase_always_follows_read (r : ReadResult) (s : StatsSnapshot)
    (w : WriteResult) :
    handle_write_events s w <:+ handle_client_events r s w ∧
    Event.writeAttempted (buildResponse s) ∈ handle_client_events r s w := by
  constructor
  · exact List.suffix_append _ _
  · exact List.mem_append.mpr (Or.inr (List.mem_cons_self _ _))

/-- C3 counterexample: with snapshot (0,0) and a write call that returns
`Ok(0)` - a shortfall, since the full response is nonempty - the handler
reports success ("Response sent") and never reports a failure, contradicting
the claim that any shortfall is treated as a WriteFailure. -/
theorem short_write_reported_as_success_cex :
    0 < (buildResponse ⟨0, 0⟩).length ∧
    writeReports (handle_write_events ⟨0, 0⟩ (.ok 0)) = [true] ∧
    false ∉ writeReports (handle_write_events ⟨0, 0⟩ (.ok 0)) := by
  refine ⟨?_, rfl, by decide⟩
  have h75 : headChunk.length = 73 := by decide
  show 0 < (response 0 0).length
  unfold response
  simp [List.length_append, h75]

/-- C3 (amended): the handler makes exactly one write attempt and never
retries; a write returning an error is reported as failure; a write returning
`Ok(n)` is reported as success for every `n`, shortfall included - the
transmitted count is never compared with the response length. -/
theorem write_report_ignores_transmitted_count (s : StatsSnapshot)
    (w : WriteResult) :
    (writePayloads (handle_write_events s w)).length = 1 ∧
    writeReports (handle_write_events s w) =
      [match w with | .ok _ => true | .err _ => false] := by
  cases w <;> simp [handle_write_events, writePayloads, writeReports]

/-- C4: the serialized response is the status line "HTTP/1.1 200 OK", CRLF,
the Content-Type header "text/html; charset=UTF-8", CRLF, the Content-Length
header, CRLF, an empty line (second CRLF), then the body; the builder is a
total function (no error path). -/
theorem response_wire_format (t u : Nat) :
    response t u =
      ("HTTP/1.1 200 OK").data ++ crlf ++
        ("Content-Type: text/html; charset=UTF-8").data ++ crlf ++
        ("Content-Length: ").data ++ natDigits (utf8Len (response_body t u)) ++
        crlf ++ crlf ++ response_body t u := by
  rw [response_lines t u]
  simp [List.append_assoc]

/-- C5: the bytes passed to `write` are exactly one payload, the response
determined by the snapshot alone; two handlers observing the same snapshot
attempt identical payloads whatever their read outcomes and write results. -/
theorem response_independent_of_request (s : StatsSnapshot)
    (r1 r2 : ReadResult) (w1 w2 : WriteResult) :
    writePayloads (handle_client_events r1 s w1) = [buildResponse s] ∧
    writePayloads (handle_client_events r1 s w1) =
      writePayloads (handle_client_events r2 s w2) := by
  have key : ∀ r w, writePayloads (handle_client_events r s w) = [buildResponse s] := by
    intro r w
    unfold handle_client_events
    rw [writePayloads_append, writePayloads_read, writePayloads_write]
    rfl
  exact ⟨key r1 w1, (key r1 w1).trans (key r2 w2).symm⟩

/-- C6: if the bind fails, `unwrap()` panics: the process result is
`panicked` for every would-be accept sequence, and no accept-loop event ever
happens. -/
theorem bind_failure_terminates_before_accept (e : ErrMsg)
    (accepts : List AcceptResult) :
    mainModel (.error e) accepts = .panicked e ∧
    mainLoopEvents (mainModel (.error e) accepts) = [] :=
  ⟨rfl, rfl⟩

/-- C7: an accept failure is logged and the loop continues with the remaining
outcomes; every accept outcome produces exactly one loop event (no failure
truncates the loop), and the listener is never closed by the loop. -/
theorem accept_failure_continues_loop (e : ErrMsg)
    (rest outs : List AcceptResult) :
    acceptLoop (.err e :: rest) =
      .acceptFailedLogged (("Unable to connect: ").data ++ e) :: acceptLoop rest ∧
    (acceptLoop outs).length = outs.length ∧
    LoopEvent.closedListener ∉ acceptLoop outs := by
  refine ⟨rfl, ?_, ?_⟩
  · induction outs with
    | nil => rfl
    | cons o os ih => cases o <;> simp [acceptLoop, ih]
  · induction outs with
    | nil => simp [acceptLoop]
    | cons o os ih => cases o <;> simp [acceptLoop, ih]

/-- C8: the read phase consumes exactly one pending read outcome (no loop
drains further bytes), and the read buffer is always exactly 4096 bytes. -/
theorem single_read_fixed_buffer (pending : List ReadResult) (bytes : List Nat) :
    (readPhaseConsume pending).2 = pending.drop 1 ∧
    (readBuffer bytes).length = 4096 := by
  constructor
  · cases pending <;> rfl
  · unfold readBuffer
    rw [List.length_append, List.length_replicate, List.length_take]
    omega

/-- C9: for every snapshot the body contains the literal "Unikernel World"
and renders each memory value as "(value) kB": the decimal digits of the
value immediately followed by " kB". -/
theorem body_contains_title_and_memory_stats (t u : Nat) :
    ("Unikernel World").data <:+: response_body t u ∧
    (natDigits t ++ (" kB").data) <:+: response_body t u ∧
    (natDigits u ++ (" kB").data) <:+: response_body t u := by
  refine ⟨?_, ?_, ?_⟩
  · refine ⟨("\n            <html>\n                <head>\n                    <meta charset=\"UTF-8\">\n                    <title>Unikernel Stats</title>\n                </head>\n                <body>\n                    <h1>Hello, ").data,
      ("!</h1>\n                    <p>Here are some system stats:</p>\n                    <ul>\n                        <li><strong>Total Memory:</strong> ").data ++
        natDigits t ++ bodyMid ++ natDigits u ++ bodyPost, ?_⟩
    unfold response_body
    rw [show bodyPre =
      ("\n            <html>\n                <head>\n                    <meta charset=\"UTF-8\">\n                    <title>Unikernel Stats</title>\n                </head>\n                <body>\n                    <h1>Hello, ").data ++
        ("Unikernel World").data ++
        ("!</h1>\n                    <p>Here are some system stats:</p>\n                    <ul>\n                        <li><strong>Total Memory:</strong> ").data from by decide]
    simp [List.append_assoc]
  · refine ⟨bodyPre,
      ("</li>\n                        <li><strong>Used Memory:</strong> ").data ++
        natDigits u ++ bodyPost, ?_⟩
    unfold response_body
    rw [show bodyMid = (" kB").data ++
      ("</li>\n                        <li><strong>Used Memory:</strong> ").data from by decide]
    simp [List.append_assoc]
  · refine ⟨bodyPre ++ natDigits t ++ bodyMid,
      ("</li>                        \n                    </ul>\n                </body>\n            </html>\n        ").data, ?_⟩
    unfold response_body
    rw [show bodyPost = (" kB").data ++
      ("</li>                        \n                    </ul>\n                </body>\n            </html>\n        ").data from by decide]
    simp [List.append_assoc]

/-- C10: on a successful read the returned byte count is discarded (the
logged line is the same for every count), and the logged text is the lossy
decoding of the whole 4096-byte buffer: the decoding of the received prefix
followed by one NUL character for each zero-initialized padding byte. -/
theorem read_log_covers_full_buffer (n m : Nat) (bytes : List Nat) :
    handle_read_log (.ok n bytes) = handle_read_log (.ok m bytes) ∧
    handle_read_log (.ok n bytes) =
      utf8Lossy (bytes.take 4096) ++
        List.replicate (4096 - (bytes.take 4096).length) (Char.ofNat 0) :=
  ⟨rfl, handle_read_log_ok n bytes⟩

end StaticWeb
